import Mathlib

/-!
Verification of the raystack_core scalar data model and its Hayson codec.

The development shallowly embeds the library's Rust sources:
`number.rs` (the compact wire-text Number parser), `hsref.rs` and
`symbol.rs` (grammar validators), `coord.rs`, `uri.rs`, `xstr.rs`,
`marker.rs`, `na.rs` (value types) and `hayson.rs` (the JSON codec).

IEEE doubles are modelled at classification level: NaN, signed infinity,
or a finite value carried as an exact rational. Rounding inside the
finite range and the sign of zero are outside the model; overflow and
underflow of the scientific-notation evaluation are modelled (see
`f64Pow10` and `f64Mul`), since they change what the codec emits.
-/

/-- Model of an `f64` value: NaN, a signed infinity, or a finite value
carried as an exact rational (IEEE rounding and negative zero are outside
the model). -/
inductive F64 where
  | nan : F64
  | inf (negative : Bool) : F64
  | finite (val : ℚ) : F64
deriving DecidableEq, Repr

/-- Rust `f64::is_nan`. -/
def F64.isNan : F64 → Bool
  | F64.nan => true
  | _ => false

/-- Rust `f64::is_infinite`. -/
def F64.isInfinite : F64 → Bool
  | F64.inf _ => true
  | _ => false

/-- Rust `f64::is_sign_positive` (the model carries no sign on NaN or on
zero; the codec only queries the sign of infinities, where the model is
exact). -/
def F64.isSignPositive : F64 → Bool
  | F64.nan => true
  | F64.inf negative => !negative
  | F64.finite q => decide (0 ≤ q)

/-- Rust `f64::is_sign_negative` on the values the codec inspects. -/
def F64.isSignNegative (x : F64) : Bool := !x.isSignPositive

/-- Rust `f64::is_finite`. -/
def F64.isFinite : F64 → Bool
  | F64.finite _ => true
  | _ => false

/-- Model of `serde_json::Value`. Object fields are an association list
looked up by key, mirroring `serde_json::Map::get`. -/
inductive Value where
  | null : Value
  | bool (b : Bool) : Value
  | num (x : F64) : Value
  | str (s : String) : Value
  | arr (elems : List Value) : Value
  | obj (fields : List (String × Value)) : Value

/-- `serde_json::Value::get` with a string key: a lookup on an object,
`None` on every other value. -/
def Value.getKey (value : Value) (key : String) : Option Value :=
  match value with
  | Value.obj fields => fields.lookup key
  | _ => none

/-- `serde_json::Value::as_f64`. With serde_json's default representation
every JSON number coerces, so the `num` case always succeeds. -/
def Value.as_f64 : Value → Option F64
  | Value.num x => some x
  | _ => none

/-- `serde_json::Value::as_str`. -/
def Value.as_str : Value → Option String
  | Value.str s => some s
  | _ => none

/-- `serde_json::Value::is_null`. -/
def Value.isNull : Value → Bool
  | Value.null => true
  | _ => false

/-- How the `json!` macro embeds an `f64`: a JSON number when finite,
JSON null otherwise (serde_json has no representation for NaN or
infinities). -/
def Value.ofF64 (x : F64) : Value :=
  match x with
  | F64.finite _ => Value.num x
  | _ => Value.null

/-- How the `json!` macro embeds an `Option<String>`: the string, or JSON
null for `None`. -/
def Value.ofOptStr : Option String → Value
  | some s => Value.str s
  | none => Value.null

/-- `FromHaysonError` of hayson.rs: a decode failure carrying a message. -/
structure FromHaysonError where
  message : String
deriving DecidableEq, Repr

/-- The `error_opt` helper of hayson.rs. -/
def error_opt (message : String) : Option FromHaysonError :=
  some { message := message }

/-- The reserved discriminator key `KIND` of hayson.rs. -/
def KIND : String := "_kind"

/-- `check_kind` of hayson.rs: the shared discriminator-tag validation.
The mismatch message reproduces the source's `format!` call, which prints
the found tag in both placeholders. -/
def check_kind (target_kind : String) (value : Value) : Option FromHaysonError :=
  match Value.getKey value KIND with
  | some (Value.str kind) =>
      if kind = target_kind then none
      else error_opt ("Expected '" ++ KIND ++ "' = " ++ kind ++ " but found " ++ kind)
  | some _ => error_opt ("'" ++ KIND ++ "' key is not a string")
  | none => error_opt ("Missing '" ++ KIND ++ "' key")

/-- ASCII decimal digit, the `Digit` class of Rust's float and integer
grammars. -/
def isDigitChar (c : Char) : Bool := '0' ≤ c && c ≤ '9'

/-- The natural number denoted by a list of decimal digits. -/
def digitsVal (cs : List Char) : Nat :=
  cs.foldl (fun acc c => 10 * acc + (c.toNat - '0'.toNat)) 0

/-- Rust `str::split` on a single separator character: every piece between
separators, empty pieces included; the empty string yields one empty
piece. -/
def splitChar (sep : Char) : List Char → List (List Char)
  | [] => [[]]
  | x :: rest =>
    if x = sep then [] :: splitChar sep rest
    else
      match splitChar sep rest with
      | [] => [[x]]
      | p :: ps => (x :: p) :: ps

/-- Whether `pat` is a prefix of `s`. -/
def headMatches : List Char → List Char → Bool
  | [], _ => true
  | _ :: _, [] => false
  | p :: ps, c :: cs => p = c && headMatches ps cs

/-- Rust `str::replacen(pat, rep, 1)`: replace the first occurrence of
`pat`, leaving the rest unchanged. -/
def replacen1 (pat rep : List Char) : List Char → List Char
  | [] => []
  | c :: rest =>
    if headMatches pat (c :: rest) then rep ++ List.drop pat.length (c :: rest)
    else c :: replacen1 pat rep rest

/-- Rust `str::trim` (the sources only ever trim ASCII whitespace). -/
def rustTrim (cs : List Char) : List Char :=
  ((cs.dropWhile Char.isWhitespace).reverse.dropWhile Char.isWhitespace).reverse

/-- The decimal part of Rust's `f64` grammar:
`(Digit+ | Digit+ '.' Digit* | Digit* '.' Digit+) (('e'|'E') Sign? Digit+)?`,
evaluated exactly: the integer and fraction digits give a numerator over a
power-of-ten denominator, and the optional exponent scales the numerator
or the denominator by a further power of ten. -/
def parseDecimal (neg : Bool) (cs : List Char) : Option F64 :=
  let intPart := cs.takeWhile isDigitChar
  let rest := cs.dropWhile isDigitChar
  let fracPart := match rest with
    | '.' :: r => r.takeWhile isDigitChar
    | _ => []
  let rest2 := match rest with
    | '.' :: r => r.dropWhile isDigitChar
    | _ => rest
  if intPart.isEmpty && fracPart.isEmpty then none
  else
    let absNum : Nat := digitsVal intPart * 10 ^ fracPart.length + digitsVal fracPart
    let den : Nat := 10 ^ fracPart.length
    let value : Nat → Nat → F64 := fun n d =>
      F64.finite (mkRat (if neg then -(n : ℤ) else (n : ℤ)) d)
    match rest2 with
    | [] => some (value absNum den)
    | e :: r =>
      if e = 'e' || e = 'E' then
        let signedDigits : Bool × List Char := match r with
          | '+' :: d => (false, d)
          | '-' :: d => (true, d)
          | d => (false, d)
        let eneg := signedDigits.1
        let ds := signedDigits.2
        if ds.isEmpty || !ds.all isDigitChar then none
        else
          if eneg then some (value absNum (den * 10 ^ digitsVal ds))
          else some (value (absNum * 10 ^ digitsVal ds) den)
      else none

/-- The body of Rust's `f64` grammar after the optional leading sign:
`inf`, `infinity` and `nan` case-insensitively, else a decimal number. The
sign of a parsed NaN is discarded (the model has a single NaN). -/
def parseSignedF64 (neg : Bool) (cs : List Char) : Option F64 :=
  let lower := cs.map Char.toLower
  if lower = "inf".toList || lower = "infinity".toList then some (F64.inf neg)
  else if lower = "nan".toList then some F64.nan
  else parseDecimal neg cs

/-- Rust `str::parse::<f64>()`, evaluated exactly over the rationals
(IEEE rounding is outside the model). -/
def rustParseF64 (s : String) : Option F64 :=
  match s.toList with
  | '+' :: rest => parseSignedF64 false rest
  | '-' :: rest => parseSignedF64 true rest
  | cs => parseSignedF64 false cs

/-- Rust `str::parse::<i32>()`: optional sign, decimal digits, failing
outside the i32 range. -/
def rustParseI32 (s : String) : Option Int :=
  let signedDigits : Bool × List Char := match s.toList with
    | '+' :: r => (false, r)
    | '-' :: r => (true, r)
    | cs => (false, cs)
  let neg := signedDigits.1
  let ds := signedDigits.2
  if ds.isEmpty || !ds.all isDigitChar then none
  else
    let v : ℤ := if neg then -(digitsVal ds : ℤ) else (digitsVal ds : ℤ)
    if v < -2147483648 || v > 2147483647 then none else some v

/-- `NumberValue` of number.rs: the scalar portion of a Number, either a
plain value or a significand with an exponent. -/
inductive NumberValue where
  | Basic (n : F64)
  | Exponent (n : F64) (e : ℤ)
deriving DecidableEq, Repr

/-- `Number` of number.rs: a scalar value and an optional unit string. -/
structure Number where
  value : NumberValue
  unit : Option String
deriving DecidableEq, Repr

/-- `Number::new` of number.rs: a plain-value Number, no validation. -/
def Number.new (value : F64) (unit : Option String) : Number :=
  { value := NumberValue.Basic value, unit := unit }

/-- `Number::new_exponent` of number.rs: a significand/exponent Number,
no validation. -/
def Number.new_exponent (base : F64) (exponent : ℤ) (unit : Option String) : Number :=
  { value := NumberValue.Exponent base exponent, unit := unit }

/-- `ParseNumberError` of number.rs, carrying the unparsable string. -/
structure ParseNumberError where
  unparsable_number : String
deriving DecidableEq, Repr

/-- `Number::from_encoded_json_string` of number.rs: strip the first
`n:`, trim, split the unit off at the first space, split the numeric part
at the first `e` to detect an exponent, and recognize the `INF` and
`-INF` literals in the plain branch. Every failure carries the string
after the `n:` replacement. -/
def Number.from_encoded_json_string (json_string : String) : Except ParseNumberError Number :=
  match splitChar ' ' (rustTrim (replacen1 "n:".toList [] json_string.toList)) with
  | [] => Except.error { unparsable_number := String.mk (replacen1 "n:".toList [] json_string.toList) }
  | number_str :: restPieces =>
    let unit : Option String := restPieces.head?.map (fun u => String.mk (rustTrim u))
    match splitChar 'e' (rustTrim number_str) with
    | [] => Except.error { unparsable_number := String.mk (replacen1 "n:".toList [] json_string.toList) }
    | base_num :: rest2 =>
      match rest2.head? with
      | some exp_num =>
        match rustParseF64 (String.mk base_num) with
        | none => Except.error { unparsable_number := String.mk (replacen1 "n:".toList [] json_string.toList) }
        | some base =>
          match rustParseI32 (String.mk exp_num) with
          | none => Except.error { unparsable_number := String.mk (replacen1 "n:".toList [] json_string.toList) }
          | some exp => Except.ok (Number.new_exponent base exp unit)
      | none =>
        if number_str = "INF".toList then Except.ok (Number.new (F64.inf false) unit)
        else if number_str = "-INF".toList then Except.ok (Number.new (F64.inf true) unit)
        else
          match rustParseF64 (String.mk number_str) with
          | none => Except.error { unparsable_number := String.mk (replacen1 "n:".toList [] json_string.toList) }
          | some number => Except.ok (Number.new number unit)

/-- `Coord` of coord.rs: a latitude/longitude pair. -/
structure Coord where
  lat : F64
  lng : F64
deriving DecidableEq, Repr

/-- `Coord::new` of coord.rs. -/
def Coord.new (lat lng : F64) : Coord := { lat := lat, lng := lng }

/-- `Ref` of hsref.rs: a validated `@`-prefixed identifier string. -/
structure Ref where
  str : String
deriving DecidableEq, Repr

/-- `Ref::is_valid_symbol_char` of hsref.rs. -/
def Ref.is_valid_symbol_char (c : Char) : Bool :=
  c = '_' || c = ':' || c = '-' || c = '.' || c = '~'

/-- Rust `char::is_alphanumeric`, modelled on the ASCII range (Unicode
letters and digits beyond ASCII are outside the model; every string the
development evaluates is ASCII). -/
def rustIsAlphanumeric (c : Char) : Bool := c.isAlpha || c.isDigit

/-- `Ref::is_valid_ref_char` of hsref.rs. -/
def Ref.is_valid_ref_char (c : Char) : Bool :=
  rustIsAlphanumeric c || Ref.is_valid_symbol_char c

/-- The `for (index, c) in chars` loop of `Ref::is_valid_ref`, with its
two mutables: the running validity flag (early exit on failure) and
`last_index_seen`, updated before each non-first character is checked. -/
def Ref.validRefLoop : List (Nat × Char) → Nat → Bool × Nat
  | [], last => (true, last)
  | (index, c) :: rest, last =>
    if index = 0 then
      if c ≠ '@' then (false, last) else Ref.validRefLoop rest last
    else
      if ¬ Ref.is_valid_ref_char c then (false, index) else Ref.validRefLoop rest index

/-- `Ref::is_valid_ref` of hsref.rs over the string's characters: empty
strings fail, the loop runs with `last_index_seen` starting at 0, and a
final `last_index_seen` of 0 (no character after the first) fails. -/
def Ref.isValidRefList (cs : List Char) : Bool :=
  if cs.isEmpty then false
  else
    let result := Ref.validRefLoop cs.enum 0
    if result.2 = 0 then false else result.1

/-- `Ref::is_valid_ref` of hsref.rs. -/
def Ref.is_valid_ref (s : String) : Bool := Ref.isValidRefList s.toList

/-- `Symbol` of symbol.rs: a validated `^`-prefixed identifier string
(named `HsSymbol` here because Mathlib already declares `Symbol`). -/
structure HsSymbol where
  str : String
deriving DecidableEq, Repr

/-- The character class `[a-z]` of the symbol regex. -/
def isLowerAz (c : Char) : Bool := 'a' ≤ c && c ≤ 'z'

/-- The character class `[a-zA-Z0-9_]` of the symbol regex. -/
def isSymWordChar (c : Char) : Bool :=
  ('a' ≤ c && c ≤ 'z') || ('A' ≤ c && c ≤ 'Z') || ('0' ≤ c && c ≤ '9') || c = '_'

/-- Whole-string membership in the language of the symbol.rs regex
`[a-z][a-zA-Z0-9_]*(-[a-z][a-zA-Z0-9_])*` (note: the final group really
is a dash, one `[a-z]` and exactly one `[a-zA-Z0-9_]`, with no star on
the last class). Since `-` belongs to neither character class, a string
is in the language exactly when splitting it on `-` gives a head piece in
`[a-z][a-zA-Z0-9_]*` and each later piece of the exact form
`[a-z][a-zA-Z0-9_]`. -/
def regexFullMatch (s : List Char) : Bool :=
  match splitChar '-' s with
  | [] => false
  | s0 :: rest =>
    (match s0 with
     | c :: cs => isLowerAz c && cs.all isSymWordChar
     | [] => false) &&
    rest.all (fun piece => match piece with
      | [c1, c2] => isLowerAz c1 && isSymWordChar c2
      | _ => false)

/-- Rust `Regex::is_match`: true exactly when some substring of the
haystack lies in the regex's language (the search is unanchored). -/
def regexIsMatch (s : List Char) : Bool :=
  (List.range (s.length + 1)).any (fun i =>
    (List.range (s.length - i + 1)).any (fun j =>
      regexFullMatch ((s.drop i).take j)))

/-- `Symbol::is_valid_symbol` of symbol.rs over the string's characters:
a `^`, then at most two `:`-separated sections, each of which the regex
`is_match` accepts. The `[]` branch of the section match is unreachable
because `split` always yields at least one piece. -/
def HsSymbol.isValidSymbolList (cs : List Char) : Bool :=
  if cs.head? = some '^' then
    match splitChar ':' cs.tail with
    | [] => false
    | first_section :: rest =>
      if (first_section :: rest).length > 2 then false
      else
        if ¬ regexIsMatch first_section then false
        else
          match rest.head? with
          | some second_section => if ¬ regexIsMatch second_section then false else true
          | none => true
  else false

/-- `Symbol::is_valid_symbol` of symbol.rs. -/
def HsSymbol.is_valid_symbol (s : String) : Bool := HsSymbol.isValidSymbolList s.toList

/-- `Marker` of marker.rs: a zero-field singleton. -/
structure Marker where
deriving DecidableEq, Repr

/-- `RemoveMarker` of marker.rs: a zero-field singleton. -/
structure RemoveMarker where
deriving DecidableEq, Repr

/-- `Na` of na.rs: a zero-field singleton. -/
structure Na where
deriving DecidableEq, Repr

/-- `Uri` of uri.rs: a string wrapper, no validation. -/
structure Uri where
  str : String
deriving DecidableEq, Repr

/-- `Xstr` of xstr.rs: a type name and a value string. -/
structure Xstr where
  type_name : String
  value : String
deriving DecidableEq, Repr

/-- Modelled from the spec: the basic (plain-magnitude) mode of the
Number value type consumed by hayson.rs, "a measured or computed scalar"
with an optional opaque unit. hayson.rs matches a `Number` enum with
`Basic` and `Scientific` variants whose definition is not among the
source files (number.rs in this revision holds an older, struct-based
`Number`); the enum is reconstructed here from the spec's data model. -/
structure BasicNumber where
  value : F64
  unit : Option String
deriving DecidableEq, Repr

/-- Modelled from the spec: the scientific-notation mode of the Number
value type consumed by hayson.rs. The spec's invariant "a
scientific-notation magnitude's significand must be finite and not NaN"
is carried in the type: the significand is stored as the exact rational
value of a finite double. -/
structure ScientificNumber where
  significand : ℚ
  exponent : ℤ
  unit : Option String
deriving DecidableEq, Repr

/-- Modelled from the spec: the Number value type of the Hayson codec,
with its "two representational modes (plain value, scientific
notation)". -/
inductive HsNumber where
  | Basic (b : BasicNumber)
  | Scientific (s : ScientificNumber)
deriving DecidableEq, Repr

/-- Modelled from the spec: `new(value, unit)` constructs a plain
Number with no validation. -/
def HsNumber.new (value : F64) (unit : Option String) : HsNumber :=
  HsNumber.Basic { value := value, unit := unit }

/-- Modelled from the spec: `new_scientific(significand, exponent, unit)`
fails when the significand is NaN or infinite and succeeds otherwise. -/
def HsNumber.new_scientific (significand : F64) (exponent : ℤ) (unit : Option String) :
    Option HsNumber :=
  match significand with
  | F64.finite q => some (HsNumber.Scientific { significand := q, exponent := exponent, unit := unit })
  | _ => none

/-- The `unit` accessor of the codec's Number. -/
def HsNumber.unit : HsNumber → Option String
  | HsNumber.Basic b => b.unit
  | HsNumber.Scientific s => s.unit

/-- The largest finite `f64`, `(2^53 - 1) * 2^971`. -/
def maxF64 : ℚ := (2 ^ 53 - 1) * 2 ^ 971

/-- Model of `10f64.powi(exp)`: the result overflows to +infinity for
`exp > 308` (ten to the 309 already exceeds the largest finite double)
and underflows to zero for `exp < -323` (ten to the -324 is below half
the smallest subnormal); in between it is finite and carried as the
exact power of ten — rounding to the nearest double inside the finite
range is outside the model, and `powi`'s accumulated relative error is
far too small to move either classification boundary. -/
def f64Pow10 (e : ℤ) : F64 :=
  if e > 308 then F64.inf false
  else if e < -323 then F64.finite 0
  else F64.finite ((10 : ℚ) ^ e)

/-- Model of the `f64` product `sig * p` for a finite `sig` (the
significand invariant): multiplying an infinity follows the IEEE sign
rule with `0 * INF = NaN`; a finite product is carried exactly and
overflows to the signed infinity beyond the largest finite double (the
threshold is taken at `maxF64` itself; the sub-ulp rounding band just
above it, and rounding inside the finite range, are outside the
model). -/
def f64Mul (sig : ℚ) (p : F64) : F64 :=
  match p with
  | F64.nan => F64.nan
  | F64.inf negative =>
      if sig = 0 then F64.nan
      else F64.inf (xor (decide (sig < 0)) negative)
  | F64.finite q =>
      if sig * q > maxF64 then F64.inf false
      else if sig * q < -maxF64 then F64.inf true
      else F64.finite (sig * q)

/-- The evaluation `sig * 10f64.powi(exp)` of hayson.rs: the power of
ten first, then the product, each with its overflow behaviour. -/
def f64MulPow10 (sig : ℚ) (exp : ℤ) : F64 := f64Mul sig (f64Pow10 exp)

/-- `Number::to_hayson` of hayson.rs: NaN and the infinities encode as
the sentinel strings with no unit key at all; every other value encodes
as a JSON number with its unit (scientific values are evaluated first). -/
def HsNumber.to_hayson : HsNumber → Value
  | HsNumber.Basic basic_num =>
    let value := basic_num.value
    if value.isNan then
      Value.obj [(KIND, Value.str "number"), ("val", Value.str "NaN")]
    else if value.isInfinite && value.isSignPositive then
      Value.obj [(KIND, Value.str "number"), ("val", Value.str "INF")]
    else if value.isInfinite && value.isSignNegative then
      Value.obj [(KIND, Value.str "number"), ("val", Value.str "-INF")]
    else
      Value.obj [(KIND, Value.str "number"), ("val", Value.ofF64 value),
        ("unit", Value.ofOptStr basic_num.unit)]
  | HsNumber.Scientific sci_num =>
    let value := f64MulPow10 sci_num.significand sci_num.exponent
    Value.obj [(KIND, Value.str "number"), ("val", Value.ofF64 value),
      ("unit", Value.ofOptStr sci_num.unit)]

/-- `Number::from_hayson` of hayson.rs: a bare JSON number decodes
unitless; an object must pass `check_kind`, hold a `val`, and may hold a
`unit` that is null or a string; a string `val` must be one of the three
sentinels, and the `NaN` sentinel discards any supplied unit. -/
def HsNumber.from_hayson (value : Value) : Except FromHaysonError HsNumber :=
  match value with
  | Value.num num =>
    match Value.as_f64 (Value.num num) with
    | some float => Except.ok (HsNumber.new float none)
    | none => Except.error { message := "Number is not a f64" }
  | Value.obj obj =>
    match check_kind "number" (Value.obj obj) with
    | some kind_err => Except.error kind_err
    | none =>
      match Value.getKey (Value.obj obj) "val" with
      | none => Except.error { message := "Number val is missing" }
      | some val =>
        let unitChecked : Except FromHaysonError (Option String) :=
          match (match Value.getKey (Value.obj obj) "unit" with
                 | some u => if Value.isNull u then none else some u
                 | none => none) with
          | none => Except.ok none
          | some unitVal =>
            match Value.as_str unitVal with
            | none => Except.error { message := "Number unit is not a string" }
            | some s => Except.ok (some s)
        match unitChecked with
        | Except.error e => Except.error e
        | Except.ok unit =>
          match val with
          | Value.str string =>
            if string = "INF" then Except.ok (HsNumber.new (F64.inf false) unit)
            else if string = "-INF" then Except.ok (HsNumber.new (F64.inf true) unit)
            else if string = "NaN" then Except.ok (HsNumber.new F64.nan none)
            else Except.error { message := "Number val is a string but is not one of INF, -INF or NaN" }
          | Value.num num =>
            match Value.as_f64 (Value.num num) with
            | some float => Except.ok (HsNumber.new float unit)
            | none => Except.error { message := "Number val is not a f64" }
          | _ => Except.error { message := "Number val must be either a number or a string" }
  | _ => Except.error { message := "Ref JSON value must be an object" }

/-- `Coord::from_hayson` of hayson.rs: tag check first, then `lat` and
`lng` presence, then their coercion to floats. -/
def Coord.from_hayson (value : Value) : Except FromHaysonError Coord :=
  match value with
  | Value.obj obj =>
    match check_kind "coord" (Value.obj obj) with
    | some kind_err => Except.error kind_err
    | none =>
      match Value.getKey (Value.obj obj) "lat" with
      | none => Except.error { message := "Coord lat is missing" }
      | some latVal =>
        match Value.getKey (Value.obj obj) "lng" with
        | none => Except.error { message := "Coord lng is missing" }
        | some lngVal =>
          match Value.as_f64 latVal with
          | none => Except.error { message := "Coord lat is not a f64" }
          | some lat =>
            match Value.as_f64 lngVal with
            | none => Except.error { message := "Coord lng is not a f64" }
            | some lng => Except.ok (Coord.new lat lng)
  | _ => Except.error { message := "Coord JSON value must be an object" }

/-- `Ref::from_hayson` of hayson.rs: tag check first, then the `val`
string, prefixed with `@` and validated against the ref grammar (the
source's final `Ref::new(ref_str).unwrap()` cannot fail there because
validity was just checked). -/
def Ref.from_hayson (value : Value) : Except FromHaysonError Ref :=
  match value with
  | Value.obj obj =>
    match check_kind "ref" (Value.obj obj) with
    | some kind_err => Except.error kind_err
    | none =>
      match Value.getKey (Value.obj obj) "val" with
      | none => Except.error { message := "Ref val is missing" }
      | some v =>
        match Value.as_str v with
        | none => Except.error { message := "Ref val is not a string" }
        | some valStr =>
          if ¬ Ref.is_valid_ref ("@" ++ valStr) then
            Except.error { message := "Ref val is not valid: " ++ "@" ++ valStr }
          else Except.ok { str := "@" ++ valStr }
  | _ => Except.error { message := "Ref JSON value must be an object" }

/-- `Symbol::from_hayson` of hayson.rs: tag check first, then the `val`
string, prefixed with `^` and validated against the symbol grammar. -/
def HsSymbol.from_hayson (value : Value) : Except FromHaysonError HsSymbol :=
  match value with
  | Value.obj obj =>
    match check_kind "symbol" (Value.obj obj) with
    | some kind_err => Except.error kind_err
    | none =>
      match Value.getKey (Value.obj obj) "val" with
      | none => Except.error { message := "Symbol val is missing" }
      | some v =>
        match Value.as_str v with
        | none => Except.error { message := "Symbol val is not a string" }
        | some valStr =>
          if ¬ HsSymbol.is_valid_symbol ("^" ++ valStr) then
            Except.error { message := "Symbol val is not valid: " ++ "^" ++ valStr }
          else Except.ok { str := "^" ++ valStr }
  | _ => Except.error { message := "Symbol JSON value must be an object" }

/-- `Marker::from_hayson` of hayson.rs: only the tag is validated. -/
def Marker.from_hayson (value : Value) : Except FromHaysonError Marker :=
  match value with
  | Value.obj _ =>
    match check_kind "marker" value with
    | some kind_err => Except.error kind_err
    | none => Except.ok {}
  | _ => Except.error { message := "Marker JSON value must be an object" }

/-- `RemoveMarker::from_hayson` of hayson.rs: only the tag is validated. -/
def RemoveMarker.from_hayson (value : Value) : Except FromHaysonError RemoveMarker :=
  match value with
  | Value.obj _ =>
    match check_kind "remove" value with
    | some kind_err => Except.error kind_err
    | none => Except.ok {}
  | _ => Except.error { message := "RemoveMarker JSON value must be an object" }

/-- `Na::from_hayson` of hayson.rs: only the tag is validated. -/
def Na.from_hayson (value : Value) : Except FromHaysonError Na :=
  match value with
  | Value.obj _ =>
    match check_kind "na" value with
    | some kind_err => Except.error kind_err
    | none => Except.ok {}
  | _ => Except.error { message := "NA JSON value must be an object" }

/-- `Uri::from_hayson` of hayson.rs: tag check first, then the `val`
string. -/
def Uri.from_hayson (value : Value) : Except FromHaysonError Uri :=
  match value with
  | Value.obj obj =>
    match check_kind "uri" (Value.obj obj) with
    | some kind_err => Except.error kind_err
    | none =>
      match Value.getKey (Value.obj obj) "val" with
      | none => Except.error { message := "Uri val is missing" }
      | some v =>
        match Value.as_str v with
        | none => Except.error { message := "Uri val is not a string" }
        | some valStr => Except.ok { str := valStr }
  | _ => Except.error { message := "Uri JSON value must be an object" }

/-- `Xstr::from_hayson` of hayson.rs: tag check first, then the `val`
string, then the `type` string. -/
def Xstr.from_hayson (value : Value) : Except FromHaysonError Xstr :=
  match value with
  | Value.obj obj =>
    match check_kind "xstr" (Value.obj obj) with
    | some kind_err => Except.error kind_err
    | none =>
      match Value.getKey (Value.obj obj) "val" with
      | none => Except.error { message := "Xstr val is missing" }
      | some v =>
        match Value.as_str v with
        | none => Except.error { message := "Xstr val is not a string" }
        | some valStr =>
          match Value.getKey (Value.obj obj) "type" with
          | none => Except.error { message := "Xstr type is missing" }
          | some t =>
            match Value.as_str t with
            | none => Except.error { message := "Xstr type is not a string" }
            | some typeName => Except.ok { type_name := typeName, value := valStr }
  | _ => Except.error { message := "Xstr JSON value must be an object" }

deriving instance DecidableEq for Except

/-- C1: decoding the Hayson encoding of a Number with a finite plain
magnitude and any optional unit succeeds and returns a Number equal to
the original. -/
theorem c1_finite_basic_roundtrip (q : ℚ) (u : Option String) :
    HsNumber.from_hayson (HsNumber.to_hayson (HsNumber.Basic { value := F64.finite q, unit := u }))
      = Except.ok (HsNumber.Basic { value := F64.finite q, unit := u }) := by
  cases u <;> rfl

/-- C2: a Number whose plain magnitude is NaN, +Infinity or -Infinity
encodes, whatever its unit, to an object whose val is the sentinel string
NaN, INF or -INF respectively and which carries no unit key at all, and
decoding that encoding yields a Number whose unit is None. -/
theorem c2_special_values_strip_unit (u : Option String) :
    (HsNumber.to_hayson (HsNumber.Basic { value := F64.nan, unit := u })
        = Value.obj [(KIND, Value.str "number"), ("val", Value.str "NaN")]
      ∧ Except.map HsNumber.unit (HsNumber.from_hayson
          (HsNumber.to_hayson (HsNumber.Basic { value := F64.nan, unit := u }))) = Except.ok none)
    ∧ (HsNumber.to_hayson (HsNumber.Basic { value := F64.inf false, unit := u })
        = Value.obj [(KIND, Value.str "number"), ("val", Value.str "INF")]
      ∧ Except.map HsNumber.unit (HsNumber.from_hayson
          (HsNumber.to_hayson (HsNumber.Basic { value := F64.inf false, unit := u }))) = Except.ok none)
    ∧ (HsNumber.to_hayson (HsNumber.Basic { value := F64.inf true, unit := u })
        = Value.obj [(KIND, Value.str "number"), ("val", Value.str "-INF")]
      ∧ Except.map HsNumber.unit (HsNumber.from_hayson
          (HsNumber.to_hayson (HsNumber.Basic { value := F64.inf true, unit := u }))) = Except.ok none) :=
  ⟨⟨rfl, rfl⟩, ⟨rfl, rfl⟩, ⟨rfl, rfl⟩⟩

/-- C4: `Number::new_exponent` of number.rs performs no validation: at
the failing inputs of a NaN or infinite significand it still returns a
Number holding that scientific magnitude, although the claim and the
spec require scientific-notation construction to fail there. -/
theorem c4_new_exponent_accepts_nan :
    Number.new_exponent F64.nan 0 none
        = { value := NumberValue.Exponent F64.nan 0, unit := none }
    ∧ Number.new_exponent (F64.inf false) 5 (some "m")
        = { value := NumberValue.Exponent (F64.inf false) 5, unit := some "m" } :=
  ⟨rfl, rfl⟩

/-- C5 (amended): every constructible scientific Number has a finite
significand; whenever the evaluated double `sig * 10f64.powi(exp)` is
finite, decoding the Hayson encoding succeeds with a plain Basic Number
holding exactly that evaluated value and the unchanged unit — the
scientific representation is not preserved; and whenever the evaluation
is not finite (overflow to an infinity, or NaN from `0 * INF`), the
encoder emits a null `val` and decoding fails. -/
theorem c5_scientific_collapses (q : ℚ) (e : ℤ) (u : Option String) :
    HsNumber.new_scientific (F64.finite q) e u
        = some (HsNumber.Scientific { significand := q, exponent := e, unit := u })
    ∧ (∀ v : ℚ, f64MulPow10 q e = F64.finite v →
        HsNumber.from_hayson (HsNumber.to_hayson
            (HsNumber.Scientific { significand := q, exponent := e, unit := u }))
          = Except.ok (HsNumber.Basic { value := F64.finite v, unit := u }))
    ∧ ((f64MulPow10 q e).isFinite = false →
        HsNumber.from_hayson (HsNumber.to_hayson
            (HsNumber.Scientific { significand := q, exponent := e, unit := u }))
          = Except.error { message := "Number val must be either a number or a string" }) := by
  refine ⟨rfl, ?_, ?_⟩
  · intro v hv
    show HsNumber.from_hayson (Value.obj [(KIND, Value.str "number"),
        ("val", Value.ofF64 (f64MulPow10 q e)), ("unit", Value.ofOptStr u)]) = _
    rw [hv]
    cases u <;> rfl
  · intro hnf
    show HsNumber.from_hayson (Value.obj [(KIND, Value.str "number"),
        ("val", Value.ofF64 (f64MulPow10 q e)), ("unit", Value.ofOptStr u)]) = _
    cases hm : f64MulPow10 q e with
    | finite v => rw [hm] at hnf; exact absurd hnf (by simp [F64.isFinite])
    | nan => cases u <;> rfl
    | inf b => cases u <;> rfl

/-- C5 counterexample: the constructible scientific Number with
significand ten to the 300 and exponent 300 (finite significand, so
`new_scientific` accepts it) evaluates to an overflowed infinity; the
encoder therefore emits a null `val` (serde_json has no non-finite
numbers) and decoding the encoding fails instead of succeeding as the
claim states. -/
theorem c5_overflow_counterexample :
    HsNumber.new_scientific (F64.finite ((10 : ℚ) ^ (300 : ℕ))) 300 none
        = some (HsNumber.Scientific
            { significand := (10 : ℚ) ^ (300 : ℕ), exponent := 300, unit := none })
    ∧ f64MulPow10 ((10 : ℚ) ^ (300 : ℕ)) 300 = F64.inf false
    ∧ HsNumber.from_hayson (HsNumber.to_hayson (HsNumber.Scientific
          { significand := (10 : ℚ) ^ (300 : ℕ), exponent := 300, unit := none }))
        = Except.error { message := "Number val must be either a number or a string" } := by
  have hpow : f64Pow10 300 = F64.finite ((10 : ℚ) ^ (300 : ℤ)) := by
    unfold f64Pow10
    norm_num
  have hgt : (10 : ℚ) ^ (300 : ℕ) * (10 : ℚ) ^ (300 : ℤ) > maxF64 := by
    unfold maxF64
    norm_num
  have hmul : f64MulPow10 ((10 : ℚ) ^ (300 : ℕ)) 300 = F64.inf false := by
    unfold f64MulPow10
    rw [hpow]
    show (if (10 : ℚ) ^ (300 : ℕ) * (10 : ℚ) ^ (300 : ℤ) > maxF64 then F64.inf false
          else if (10 : ℚ) ^ (300 : ℕ) * (10 : ℚ) ^ (300 : ℤ) < -maxF64 then F64.inf true
          else F64.finite ((10 : ℚ) ^ (300 : ℕ) * (10 : ℚ) ^ (300 : ℤ))) = F64.inf false
    rw [if_pos hgt]
  refine ⟨rfl, hmul, ?_⟩
  show HsNumber.from_hayson (Value.obj [(KIND, Value.str "number"),
      ("val", Value.ofF64 (f64MulPow10 ((10 : ℚ) ^ (300 : ℕ)) 300)),
      ("unit", Value.ofOptStr none)]) = _
  rw [hmul]
  rfl

/-- C8: the compact wire-text parser recognizes the exponent form with a
unit, the INF and -INF literals, and signed or unsigned NaN with the
sign discarded, keeping any unit that follows a space. -/
theorem c8_wire_tokens :
    Number.from_encoded_json_string "n:1.23e+47 min"
        = Except.ok { value := NumberValue.Exponent (F64.finite (mkRat 123 100)) 47, unit := some "min" }
    ∧ Number.from_encoded_json_string "n:INF"
        = Except.ok { value := NumberValue.Basic (F64.inf false), unit := none }
    ∧ Number.from_encoded_json_string "n:-INF"
        = Except.ok { value := NumberValue.Basic (F64.inf true), unit := none }
    ∧ Number.from_encoded_json_string "n:NaN"
        = Except.ok { value := NumberValue.Basic F64.nan, unit := none }
    ∧ Number.from_encoded_json_string "n:-NaN"
        = Except.ok { value := NumberValue.Basic F64.nan, unit := none }
    ∧ Number.from_encoded_json_string "n:+NaN"
        = Except.ok { value := NumberValue.Basic F64.nan, unit := none }
    ∧ Number.from_encoded_json_string "n:-NaN min"
        = Except.ok { value := NumberValue.Basic F64.nan, unit := some "min" }
    ∧ Number.from_encoded_json_string "n:+NaN min"
        = Except.ok { value := NumberValue.Basic F64.nan, unit := some "min" } := by
  decide

/-- C10: the Number decoder keeps a supplied string unit on the INF and
-INF sentinels and discards it only on the NaN sentinel; unit stripping
for infinities happens on the encoding side alone. -/
theorem c10_decode_inf_keeps_unit (u : String) :
    HsNumber.from_hayson (Value.obj
        [(KIND, Value.str "number"), ("val", Value.str "INF"), ("unit", Value.str u)])
        = Except.ok (HsNumber.Basic { value := F64.inf false, unit := some u })
    ∧ HsNumber.from_hayson (Value.obj
        [(KIND, Value.str "number"), ("val", Value.str "-INF"), ("unit", Value.str u)])
        = Except.ok (HsNumber.Basic { value := F64.inf true, unit := some u })
    ∧ HsNumber.from_hayson (Value.obj
        [(KIND, Value.str "number"), ("val", Value.str "NaN"), ("unit", Value.str u)])
        = Except.ok (HsNumber.Basic { value := F64.nan, unit := none }) :=
  ⟨rfl, rfl, rfl⟩

/-- C3: `check_kind` succeeds exactly when the discriminator key is
present, is a string and equals the expected tag, and otherwise reports
the matching tag-class error (missing key, not a string, or mismatch);
every decoder, applied to any JSON object on which `check_kind` fails,
returns exactly that tag error and never a field-level error, whatever
other fields the object is missing. -/
theorem c3_tag_validation_precedence :
    (∀ tag v, check_kind tag v = none ↔ Value.getKey v KIND = some (Value.str tag))
    ∧ (∀ tag m, Value.getKey (Value.obj m) KIND = none →
        check_kind tag (Value.obj m) = error_opt ("Missing '" ++ KIND ++ "' key"))
    ∧ (∀ tag m k, Value.getKey (Value.obj m) KIND = some k → Value.as_str k = none →
        check_kind tag (Value.obj m) = error_opt ("'" ++ KIND ++ "' key is not a string"))
    ∧ (∀ tag m kind, Value.getKey (Value.obj m) KIND = some (Value.str kind) → kind ≠ tag →
        check_kind tag (Value.obj m)
          = error_opt ("Expected '" ++ KIND ++ "' = " ++ kind ++ " but found " ++ kind))
    ∧ (∀ m e, check_kind "coord" (Value.obj m) = some e →
        Coord.from_hayson (Value.obj m) = Except.error e)
    ∧ (∀ m e, check_kind "ref" (Value.obj m) = some e →
        Ref.from_hayson (Value.obj m) = Except.error e)
    ∧ (∀ m e, check_kind "number" (Value.obj m) = some e →
        HsNumber.from_hayson (Value.obj m) = Except.error e)
    ∧ (∀ m e, check_kind "symbol" (Value.obj m) = some e →
        HsSymbol.from_hayson (Value.obj m) = Except.error e)
    ∧ (∀ m e, check_kind "marker" (Value.obj m) = some e →
        Marker.from_hayson (Value.obj m) = Except.error e)
    ∧ (∀ m e, check_kind "remove" (Value.obj m) = some e →
        RemoveMarker.from_hayson (Value.obj m) = Except.error e)
    ∧ (∀ m e, check_kind "na" (Value.obj m) = some e →
        Na.from_hayson (Value.obj m) = Except.error e)
    ∧ (∀ m e, check_kind "uri" (Value.obj m) = some e →
        Uri.from_hayson (Value.obj m) = Except.error e)
    ∧ (∀ m e, check_kind "xstr" (Value.obj m) = some e →
        Xstr.from_hayson (Value.obj m) = Except.error e) := by
  refine ⟨?_, ?_, ?_, ?_, ?_, ?_, ?_, ?_, ?_, ?_, ?_, ?_, ?_⟩
  · intro tag v
    unfold check_kind
    rcases hv : Value.getKey v KIND with _ | k
    · simp [error_opt]
    · cases k <;> simp [error_opt]
  · intro tag m h
    unfold check_kind
    rw [h]
  · intro tag m k h hs
    unfold check_kind
    rw [h]
    cases k <;> simp_all [Value.as_str, error_opt]
  · intro tag m kind h hne
    unfold check_kind
    rw [h]
    simp [hne]
  · intro m e h
    simp only [Coord.from_hayson, h]
  · intro m e h
    simp only [Ref.from_hayson, h]
  · intro m e h
    simp only [HsNumber.from_hayson, h]
  · intro m e h
    simp only [HsSymbol.from_hayson, h]
  · intro m e h
    simp only [Marker.from_hayson, h]
  · intro m e h
    simp only [RemoveMarker.from_hayson, h]
  · intro m e h
    simp only [Na.from_hayson, h]
  · intro m e h
    simp only [Uri.from_hayson, h]
  · intro m e h
    simp only [Xstr.from_hayson, h]

/-- Unfolding step of `List.enumFrom` on a cons cell. -/
theorem enumFrom_cons (n : Nat) (c : Char) (l : List Char) :
    List.enumFrom n (c :: l) = (n, c) :: List.enumFrom (n + 1) l := rfl

/-- Past index 0 the ref loop's validity flag is the conjunction of the
per-character checks. -/
theorem validRefLoop_fst (rest : List Char) : ∀ (k last : Nat), k ≠ 0 →
    (Ref.validRefLoop (List.enumFrom k rest) last).1 = rest.all Ref.is_valid_ref_char := by
  induction rest with
  | nil => intro k last _; rfl
  | cons c tl ih =>
    intro k last hk
    rw [enumFrom_cons]
    unfold Ref.validRefLoop
    rw [if_neg hk]
    by_cases hc : Ref.is_valid_ref_char c = true
    · simp [hc, ih (k + 1) k (Nat.succ_ne_zero k)]
    · simp [hc]

/-- Past index 0 the ref loop leaves `last_index_seen` at 0 exactly when
it saw no character at all and it started at 0. -/
theorem validRefLoop_snd (rest : List Char) : ∀ (k last : Nat), k ≠ 0 →
    ((Ref.validRefLoop (List.enumFrom k rest) last).2 = 0 ↔ rest = [] ∧ last = 0) := by
  induction rest with
  | nil => intro k last _; simp [Ref.validRefLoop]
  | cons c tl ih =>
    intro k last hk
    rw [enumFrom_cons]
    unfold Ref.validRefLoop
    rw [if_neg hk]
    by_cases hc : Ref.is_valid_ref_char c = true
    · simp [hc, ih (k + 1) k (Nat.succ_ne_zero k), hk]
    · simp [hc, hk]

/-- The ref validator accepts exactly an `@` followed by at least one
character with every following character in the ref character class. -/
theorem isValidRefList_iff (cs : List Char) :
    Ref.isValidRefList cs = true ↔
      ∃ rest, cs = '@' :: rest ∧ rest ≠ [] ∧ ∀ c ∈ rest, Ref.is_valid_ref_char c = true := by
  cases cs with
  | nil => simp [Ref.isValidRefList]
  | cons c tl =>
    have henum : (c :: tl).enum = (0, c) :: List.enumFrom 1 tl := rfl
    simp only [Ref.isValidRefList, List.isEmpty_cons, if_false, henum]
    unfold Ref.validRefLoop
    simp only [if_pos rfl]
    by_cases hc : c = '@'
    · subst hc
      simp only [ne_eq, not_true_eq_false, if_false, ite_false]
      cases tl with
      | nil => simp [Ref.validRefLoop, List.enumFrom]
      | cons d tl2 =>
        have h1 := validRefLoop_fst (d :: tl2) 1 0 one_ne_zero
        have h2 := validRefLoop_snd (d :: tl2) 1 0 one_ne_zero
        by_cases h0 : (Ref.validRefLoop (List.enumFrom 1 (d :: tl2)) 0).2 = 0
        · exact absurd ((h2.mp h0).1) (by simp)
        · rw [enumFrom_cons] at h0 h1
          simp [h0, h1, List.all_eq_true]
    · simp [hc]

/-- C6: `Ref::is_valid_ref` accepts exactly an `@` followed by at least
one character, each alphanumeric or one of the five symbol characters;
the example ref is accepted, `@` alone and the empty string are rejected,
and any string with `/`, `,` or `|` after its first character is
rejected. -/
theorem c6_ref_grammar :
    (∀ s : String, Ref.is_valid_ref s = true ↔
       ∃ rest : List Char, s.toList = '@' :: rest ∧ rest ≠ [] ∧
         ∀ c ∈ rest, (rustIsAlphanumeric c
           || (c = '_' || c = ':' || c = '-' || c = '.' || c = '~')) = true)
    ∧ Ref.is_valid_ref "@p:proj:r:abc-123" = true
    ∧ Ref.is_valid_ref "@" = false
    ∧ Ref.is_valid_ref "" = false
    ∧ (∀ (s : String) (c : Char), c ∈ s.toList.tail → (c = '/' ∨ c = ',' ∨ c = '|') →
        Ref.is_valid_ref s = false) := by
  refine ⟨?_, by decide, by decide, by decide, ?_⟩
  · intro s
    exact isValidRefList_iff s.toList
  · intro s c hmem hc
    cases hval : Ref.is_valid_ref s with
    | false => rfl
    | true =>
      exfalso
      obtain ⟨rest, hlist, -, hall⟩ := (isValidRefList_iff s.toList).mp hval
      rw [hlist] at hmem
      have hv := hall c hmem
      rcases hc with h | h | h <;> subst h <;> exact absurd hv (by decide)

/-- `split` always yields at least one piece. -/
theorem splitChar_ne_nil (sep : Char) (s : List Char) : splitChar sep s ≠ [] := by
  cases s with
  | nil => simp [splitChar]
  | cons x rest =>
    unfold splitChar
    split
    · simp
    · split <;> simp

/-- Every character of a piece of `split` is a character of the split
string. -/
theorem mem_of_mem_splitChar (sep : Char) :
    ∀ (s p : List Char), p ∈ splitChar sep s → ∀ x ∈ p, x ∈ s := by
  intro s
  induction s with
  | nil =>
    intro p hp x hx
    simp [splitChar] at hp
    subst hp
    simp at hx
  | cons a tl ih =>
    intro p hp x hx
    unfold splitChar at hp
    by_cases ha : a = sep
    · rw [if_pos ha] at hp
      rcases List.mem_cons.mp hp with h | h
      · subst h; simp at hx
      · exact List.mem_cons_of_mem a (ih p h x hx)
    · rw [if_neg ha] at hp
      cases hs : splitChar sep tl with
      | nil => exact absurd hs (splitChar_ne_nil sep tl)
      | cons q qs =>
        rw [hs] at hp
        rcases List.mem_cons.mp hp with h | h
        · subst h
          rcases List.mem_cons.mp hx with h2 | h2
          · rw [h2]; exact List.mem_cons_self a tl
          · have hq : q ∈ splitChar sep tl := by rw [hs]; exact List.mem_cons_self q qs
            exact List.mem_cons_of_mem a (ih q hq x h2)
        · have hp2 : p ∈ splitChar sep tl := by rw [hs]; exact List.mem_cons_of_mem q h
          exact List.mem_cons_of_mem a (ih p hp2 x hx)

/-- A string in the symbol regex's language contains a lowercase ASCII
letter (its first character). -/
theorem regexFullMatch_has_lower (t : List Char) (h : regexFullMatch t = true) :
    ∃ c ∈ t, isLowerAz c = true := by
  unfold regexFullMatch at h
  cases hs : splitChar '-' t with
  | nil => rw [hs] at h; simp at h
  | cons s0 rest =>
    rw [hs] at h
    cases s0 with
    | nil => simp at h
    | cons c cs =>
      simp only [Bool.and_eq_true] at h
      refine ⟨c, ?_, h.1.1⟩
      exact mem_of_mem_splitChar '-' t (c :: cs)
        (by rw [hs]; exact List.mem_cons_self _ _) c (List.mem_cons_self c cs)

/-- The unanchored search `Regex::is_match` with the symbol regex comes
down to containing a lowercase ASCII letter: a single lowercase letter is
already a match, and every match starts with one. -/
theorem regexIsMatch_eq_any (s : List Char) : regexIsMatch s = s.any isLowerAz := by
  by_cases h : s.any isLowerAz = true
  · rw [h]
    obtain ⟨c, hcmem, hlc⟩ := List.any_eq_true.mp h
    obtain ⟨l1, l2, rfl⟩ := List.append_of_mem hcmem
    unfold regexIsMatch
    rw [List.any_eq_true]
    refine ⟨l1.length, ?_, ?_⟩
    · rw [List.mem_range]
      simp [List.length_append]
      omega
    · rw [List.any_eq_true]
      refine ⟨1, ?_, ?_⟩
      · rw [List.mem_range]
        simp [List.length_append]
      · rw [List.drop_left]
        have hcd : ¬ (c = '-') := by
          intro hh; subst hh; exact absurd hlc (by decide)
        show regexFullMatch ((c :: l2).take 1) = true
        rw [show (c :: l2).take 1 = [c] from by simp]
        unfold regexFullMatch splitChar
        rw [if_neg hcd]
        simp [splitChar, hlc]
  · have hf : s.any isLowerAz = false := by simpa using h
    rw [hf]
    by_contra hm
    have hm2 : regexIsMatch s = true := by simpa using hm
    unfold regexIsMatch at hm2
    rw [List.any_eq_true] at hm2
    obtain ⟨i, -, hi⟩ := hm2
    rw [List.any_eq_true] at hi
    obtain ⟨j, -, hj⟩ := hi
    obtain ⟨c, hcm, hlc⟩ := regexFullMatch_has_lower _ hj
    have hc1 : c ∈ s.drop i := List.take_subset _ _ hcm
    have hc2 : c ∈ s := List.drop_subset _ _ hc1
    have hany := List.any_eq_true.mpr ⟨c, hc2, hlc⟩
    rw [hf] at hany
    exact Bool.false_ne_true hany

/-- After the caret the symbol validator demands at most two sections and
an `is_match` on each. -/
theorem isValidSymbolTail (tl : List Char) :
    HsSymbol.isValidSymbolList ('^' :: tl) = true ↔
      ((splitChar ':' tl).length ≤ 2 ∧ ∀ sec ∈ splitChar ':' tl, regexIsMatch sec = true) := by
  unfold HsSymbol.isValidSymbolList
  rw [if_pos (by simp)]
  simp only [List.tail_cons]
  cases hs : splitChar ':' tl with
  | nil => exact absurd hs (splitChar_ne_nil ':' tl)
  | cons p0 ps =>
    cases ps with
    | nil =>
      by_cases hm : regexIsMatch p0 = true
      · simp [hm]
      · simp [hm]
    | cons p1 ps2 =>
      cases ps2 with
      | nil =>
        by_cases hm0 : regexIsMatch p0 = true
        · by_cases hm1 : regexIsMatch p1 = true
          · simp [hm0, hm1]
          · simp [hm0, hm1]
        · simp [hm0]
      | cons p2 ps3 =>
        simp

/-- The symbol validator accepts exactly a caret followed by at most two
colon-separated sections, each accepted by the regex search. -/
theorem isValidSymbolList_iff (cs : List Char) :
    HsSymbol.isValidSymbolList cs = true ↔
      ∃ rest, cs = '^' :: rest ∧ (splitChar ':' rest).length ≤ 2 ∧
        ∀ sec ∈ splitChar ':' rest, regexIsMatch sec = true := by
  cases cs with
  | nil => simp [HsSymbol.isValidSymbolList]
  | cons c tl =>
    by_cases hc : c = '^'
    · subst hc
      rw [isValidSymbolTail]
      simp [List.cons.injEq]
    · constructor
      · intro h
        exfalso
        unfold HsSymbol.isValidSymbolList at h
        rw [if_neg (by simp [hc])] at h
        exact Bool.false_ne_true h
      · rintro ⟨rest, heq, -, -⟩
        injection heq with h1 _
        exact absurd h1 hc

/-- C7 (amended): `Symbol::is_valid_symbol` accepts exactly a `^`, a
remainder of at most two `:`-separated sections, and a section-wise
`Regex::is_match` of `[a-z][a-zA-Z0-9_]*(-[a-z][a-zA-Z0-9_])*` — an
unanchored substring search, equivalent to each section containing at
least one lowercase ASCII letter, not a whole-section match; the
spec's accepted and rejected examples behave as stated. -/
theorem c7_symbol_grammar :
    (∀ s : String, HsSymbol.is_valid_symbol s = true ↔
       ∃ rest : List Char, s.toList = '^' :: rest ∧ (splitChar ':' rest).length ≤ 2 ∧
         ∀ sec ∈ splitChar ':' rest, regexIsMatch sec = true)
    ∧ (∀ sec : List Char, regexIsMatch sec = sec.any isLowerAz)
    ∧ HsSymbol.is_valid_symbol "^steam-boiler:sub-part" = true
    ∧ HsSymbol.is_valid_symbol "^steam:boiler:another" = false := by
  refine ⟨fun s => isValidSymbolList_iff s.toList, regexIsMatch_eq_any, by decide, by decide⟩

/-- C7 counterexample: the validator accepts strings whose segments are
not in the regex's language, so "each segment matches the pattern" read
as a whole-segment match is false on the code: the repository's own test
string has a segment rejected by a whole-string match, as does a segment
that merely contains a lowercase letter without starting with one. -/
theorem c7_whole_match_counterexample :
    HsSymbol.is_valid_symbol "^steam_-__boil_er" = true
    ∧ regexFullMatch "steam_-__boil_er".toList = false
    ∧ HsSymbol.is_valid_symbol "^0a" = true
    ∧ regexFullMatch "0a".toList = false := by decide

/-- C9 counterexample: a failed parse of "n:abc" carries the payload
"abc", not the original string verbatim — the leading `n:` has been
removed before any error is built. -/
theorem c9_verbatim_counterexample :
    Number.from_encoded_json_string "n:abc" = Except.error { unparsable_number := "abc" }
    ∧ ("abc" : String) ≠ "n:abc" := by decide

/-- C9 (amended): every failure of the compact wire-text parser carries
the input string after the single `replacen("n:", "", 1)` pass — the
input with its first `n:` occurrence removed, not the input verbatim. -/
theorem c9_error_payload (s : String) (e : ParseNumberError)
    (h : Number.from_encoded_json_string s = Except.error e) :
    e.unparsable_number = String.mk (replacen1 "n:".toList [] s.toList) := by
  unfold Number.from_encoded_json_string at h
  repeat' split at h
  all_goals cases h
  all_goals rfl

/-- C9 witness: the amended payload law evaluated at the concrete failing
input "n:abc". -/
theorem c9_error_payload_witness :
    ParseNumberError.unparsable_number { unparsable_number := "abc" }
      = String.mk (replacen1 "n:".toList [] "n:abc".toList) :=
  c9_error_payload "n:abc" { unparsable_number := "abc" } (by decide)
